import Mathlib

/-!
Verification of the FlowSerial protocol engine (src/FlowSerial.hpp).

The repository ships the interface header only; the enum declarations,
member fields and method signatures below are taken from the header, and
every method body is modelled from the design document, as its doc
comment states.  Machine integers are modelled as Nat with explicit
reduction modulo 2 to the relevant power where the C++ type wraps.
-/

namespace FlowSerial

/-- Parser states, from the State enum of src/FlowSerial.hpp lines 34-42. -/
inductive State
  | idle
  | startByteReceived
  | instructionReceived
  | argumentsReceived
  | lsbChecksumReceived
  | msbChecksumReceived
  | checksumOk
deriving DecidableEq

/-- Frame instructions, from the Instruction enum of src/FlowSerial.hpp lines 43-47. -/
inductive Instruction
  | read
  | write
  | returnRequestedData
deriving DecidableEq

/-- Modelled from the spec: the wire code of each instruction; the header
fixes only the enumeration order, so the codes 0, 1, 2 follow that order. -/
def instructionCode (inst : Instruction) : Nat :=
  match inst with
  | Instruction.read => 0
  | Instruction.write => 1
  | Instruction.returnRequestedData => 2

/-- Modelled from the spec: decoding of a received instruction byte; an
unrecognized code yields none and resets the parser to idle. -/
def decodeInstruction (b : Nat) : Option Instruction :=
  if b = 0 then some Instruction.read
  else if b = 1 then some Instruction.write
  else if b = 2 then some Instruction.returnRequestedData
  else none

/-- Modelled from the spec: the reserved start-of-frame marker byte.  The
header does not fix its numeric value; 0xAA is the representative value
used throughout this development. -/
def startMarker : Nat := 0xAA

/-- Modelled from the spec, section 4.1: the Checksum Engine accumulator,
an unsigned 16-bit running sum with wraparound. -/
def accumulate (runningSum b : Nat) : Nat :=
  (runningSum + b) % 65536

/-- Modelled from the spec, section 4.1: checksum verification is exact
equality of the accumulated and the received sums. -/
def verify (runningSum receivedSum : Nat) : Bool :=
  runningSum == receivedSum

/-- The running checksum of a byte list, folding the accumulator from 0.
Seeding with the first byte, as the parser does at the instruction byte,
coincides with this fold because bytes are below 65536. -/
def checksumOf (l : List Nat) : Nat :=
  l.foldl accumulate 0

/-- Modelled from the spec: how many payload bytes follow the length
field; a Read request carries none (its length field is the requested
byte count), Write and ReturnRequestedData carry exactly length bytes. -/
def payloadLength (inst : Instruction) (n : Nat) : Nat :=
  match inst with
  | Instruction.read => 0
  | Instruction.write => n
  | Instruction.returnRequestedData => n

/-- The mutable state of a FlowSerial::BaseSocket, fields after
src/FlowSerial.hpp lines 108-156.  The register is a borrowed byte array
modelled as a list (registerLength is its length); sentFrames records the
byte arrays handed to the pure virtual sendToInterface, oldest first. -/
structure BaseSocket where
  flowRegister : List Nat
  inputBufferAvailable : Nat
  inputBuffer : List Nat
  checksum : Nat
  checksumReceived : Nat
  argumentBytesReceived : Nat
  startAddress : Nat
  nBytes : Nat
  flowSerialBuffer : List Nat
  flowSerialState : State
  instruction : Instruction
  sentFrames : List (List Nat)
deriving DecidableEq

/-- The staging and returned-data capacity, src/FlowSerial.hpp line 137. -/
def inputBufferSize : Nat := 256

/-- registerLength of src/FlowSerial.hpp line 116: the length of the
array the socket borrows. -/
def registerLength (s : BaseSocket) : Nat :=
  s.flowRegister.length

/-- Modelled from the spec, section 4.3: serialization of one frame:
marker, instruction, start address, length, payload, then the 16-bit
checksum over instruction through payload, low byte first. -/
def frameBytes (inst : Instruction) (sa len : Nat) (payload : List Nat) : List Nat :=
  startMarker :: instructionCode inst :: sa :: len ::
    (payload ++ [checksumOf (instructionCode inst :: sa :: len :: payload) % 256,
                 checksumOf (instructionCode inst :: sa :: len :: payload) / 256])

/-- Modelled from the spec, section 4.2: the effect dispatched when a
frame reaches the checksumOk state.  Write copies the staged payload into
the register after a bounds check; Read answers with a
ReturnRequestedData frame built from the register after the same check;
ReturnRequestedData overwrites the returned-data buffer, resetting its
index to 0 before the append, with the count held in an 8-bit field. -/
def applyEffect (s : BaseSocket) : BaseSocket :=
  match s.instruction with
  | Instruction.write =>
      if s.startAddress + s.nBytes ≤ s.flowRegister.length then
        { s with flowRegister :=
            s.flowRegister.take s.startAddress
            ++ s.flowSerialBuffer.take s.nBytes
            ++ s.flowRegister.drop (s.startAddress + s.nBytes) }
      else
        s
  | Instruction.read =>
      if s.startAddress + s.nBytes ≤ s.flowRegister.length then
        { s with sentFrames := s.sentFrames ++
            [frameBytes Instruction.returnRequestedData s.startAddress s.nBytes
              ((s.flowRegister.drop s.startAddress).take s.nBytes)] }
      else
        s
  | Instruction.returnRequestedData =>
      { s with inputBuffer := s.flowSerialBuffer,
               inputBufferAvailable := s.flowSerialBuffer.length % 256 }

/-- Modelled from the spec, section 4.2: one step of the frame parser,
consuming a single byte.  The returned flag is true exactly when this
byte completed a frame whose checksum verified (the momentary checksumOk
state); the msbChecksumReceived and checksumOk states are momentary, so
the machine returns to idle within the same step. -/
def handleByte (s : BaseSocket) (b : Nat) : BaseSocket × Bool :=
  match s.flowSerialState with
  | State.idle =>
      if b = startMarker then
        ({ s with flowSerialState := State.startByteReceived }, false)
      else
        (s, false)
  | State.startByteReceived =>
      match decodeInstruction b with
      | some inst =>
          ({ s with instruction := inst,
                    checksum := b % 65536,
                    argumentBytesReceived := 0,
                    flowSerialBuffer := [],
                    flowSerialState := State.instructionReceived }, false)
      | none =>
          ({ s with flowSerialState := State.idle }, false)
  | State.instructionReceived =>
      if s.argumentBytesReceived = 0 then
        ({ s with startAddress := b,
                  checksum := accumulate s.checksum b,
                  argumentBytesReceived := 1 }, false)
      else if s.argumentBytesReceived = 1 then
        if payloadLength s.instruction b = 0 then
          ({ s with nBytes := b,
                    checksum := accumulate s.checksum b,
                    argumentBytesReceived := 2,
                    flowSerialState := State.argumentsReceived }, false)
        else
          ({ s with nBytes := b,
                    checksum := accumulate s.checksum b,
                    argumentBytesReceived := 2 }, false)
      else
        if (s.flowSerialBuffer ++ [b]).length = payloadLength s.instruction s.nBytes then
          ({ s with flowSerialBuffer := s.flowSerialBuffer ++ [b],
                    checksum := accumulate s.checksum b,
                    flowSerialState := State.argumentsReceived }, false)
        else
          ({ s with flowSerialBuffer := s.flowSerialBuffer ++ [b],
                    checksum := accumulate s.checksum b }, false)
  | State.argumentsReceived =>
      ({ s with checksumReceived := b % 256,
                flowSerialState := State.lsbChecksumReceived }, false)
  | State.lsbChecksumReceived =>
      if verify s.checksum ((s.checksumReceived + 256 * (b % 256)) % 65536) then
        (applyEffect { s with checksumReceived := (s.checksumReceived + 256 * (b % 256)) % 65536,
                              flowSerialState := State.idle }, true)
      else
        ({ s with checksumReceived := (s.checksumReceived + 256 * (b % 256)) % 65536,
                  flowSerialState := State.idle }, false)
  | State.msbChecksumReceived =>
      ({ s with flowSerialState := State.idle }, false)
  | State.checksumOk =>
      ({ s with flowSerialState := State.idle }, false)

/-- Modelled from the spec: BaseSocket::update of src/FlowSerial.hpp line
124, feeding received bytes in chronological order; returns true when a
full FlowSerial message has been received during the call. -/
def update (s : BaseSocket) : List Nat → BaseSocket × Bool
  | [] => (s, false)
  | b :: rest =>
      ((update (handleByte s b).1 rest).1,
       (handleByte s b).2 || (update (handleByte s b).1 rest).2)

/-- Whether feeding byte b in state s completes a frame: the parser is
waiting for the checksum high byte and the assembled received checksum
verifies against the locally accumulated one. -/
def frameCompletes (s : BaseSocket) (b : Nat) : Bool :=
  s.flowSerialState == State.lsbChecksumReceived
    && verify s.checksum ((s.checksumReceived + 256 * (b % 256)) % 65536)

/-- The number of frames reaching the momentary checksumOk state while a
byte list is fed to the parser. -/
def completedFrames (s : BaseSocket) : List Nat → Nat
  | [] => 0
  | b :: rest =>
      (if frameCompletes s b then 1 else 0) + completedFrames (handleByte s b).1 rest

/-- BaseSocket::available of src/FlowSerial.hpp line 95: the byte count
of the returned-data buffer, stored in an 8-bit counter. -/
def available (s : BaseSocket) : Nat :=
  s.inputBufferAvailable

/-- Modelled from the spec: BaseSocket::getReturnedData of
src/FlowSerial.hpp line 102, copying up to available bytes of the
returned-data buffer, index 0 being the first byte received. -/
def getReturnedData (s : BaseSocket) : List Nat :=
  s.inputBuffer.take s.inputBufferAvailable

/-- BaseSocket::clearReturnedData of src/FlowSerial.hpp line 106: sets
the input buffer index to zero, clearing all input. -/
def clearReturnedData (s : BaseSocket) : BaseSocket :=
  { s with inputBufferAvailable := 0 }

/-- The BaseSocket constructor of src/FlowSerial.hpp line 61: a fresh
socket borrowing the given register, idle with empty buffers. -/
def mkSocket (reg : List Nat) : BaseSocket :=
  { flowRegister := reg
    inputBufferAvailable := 0
    inputBuffer := []
    checksum := 0
    checksumReceived := 0
    argumentBytesReceived := 0
    startAddress := 0
    nBytes := 0
    flowSerialBuffer := []
    flowSerialState := State.idle
    instruction := Instruction.read
    sentFrames := [] }

/-- The error kinds of src/FlowSerial.hpp lines 240-264, as a tagged
enumeration; sizeError models the synchronous rejection of requests
exceeding the staging capacity, timeoutError models TimeoutError. -/
inductive FlowError
  | sizeError
  | timeoutError
deriving DecidableEq

/-- Modelled from the spec, section 4.3: BaseSocket::sendReadRequest of
src/FlowSerial.hpp line 69.  On success the returned list is the byte
array handed to the Transport; an oversize request is rejected before
any byte reaches the Transport. -/
def sendReadRequest (startAddress nBytes : Nat) : Except FlowError (List Nat) :=
  if inputBufferSize < nBytes then
    Except.error FlowError.sizeError
  else
    Except.ok (frameBytes Instruction.read startAddress nBytes [])

/-- Modelled from the spec, section 4.3: BaseSocket::writeToPeer of
src/FlowSerial.hpp line 89.  On success the returned list is the byte
array handed to the Transport; an oversize request is rejected before
any byte reaches the Transport. -/
def writeToPeer (startAddress : Nat) (data : List Nat) : Except FlowError (List Nat) :=
  if inputBufferSize < data.length then
    Except.error FlowError.sizeError
  else
    Except.ok (frameBytes Instruction.write startAddress data.length data)

/-- Modelled from the spec, section 4.4: the retry bound of the blocking
read, three attempts. -/
def readMaxAttempts : Nat := 3

/-- Modelled from the spec, section 4.4: the per-attempt wait ceiling of
the blocking read, in milliseconds; real time is outside the model, the
wait itself is abstracted by an oracle. -/
def readTimeoutMs : Nat := 500

/-- Modelled from the spec, section 5: what one 500 ms wait of a read
attempt observes, abstracting the background receive task: either no
ReturnRequestedData frame completed within the window, or one completed
carrying the given payload. -/
inductive AttemptOutcome
  | timeout
  | response (payload : List Nat)
deriving DecidableEq

/-- Modelled from the spec, section 4.2: the returned-data buffer change
made by a completed ReturnRequestedData frame, as applyEffect performs
it: the index resets to 0 before the append and the 8-bit count becomes
the payload length modulo 256. -/
def deliverReturnedData (s : BaseSocket) (p : List Nat) : BaseSocket :=
  { s with inputBuffer := p, inputBufferAvailable := p.length % 256 }

/-- A read attempt fails when its wait times out or the delivered length,
as the 8-bit available counter reports it, differs from the requested
count. -/
def attemptFails (o : AttemptOutcome) (n : Nat) : Bool :=
  match o with
  | AttemptOutcome.timeout => true
  | AttemptOutcome.response p => decide (p.length % 256 ≠ n)

/-- Modelled from the spec, section 4.4: one attempt of the blocking
read: clear the returned-data buffer, wait (the oracle outcome), and on a
delivery whose available count equals n hand the buffer content over. -/
def readAttempt (s : BaseSocket) (n : Nat) (o : AttemptOutcome) : BaseSocket × Option (List Nat) :=
  match o with
  | AttemptOutcome.timeout => (clearReturnedData s, none)
  | AttemptOutcome.response p =>
      if available (deliverReturnedData (clearReturnedData s) p) = n then
        (deliverReturnedData (clearReturnedData s) p,
         some (getReturnedData (deliverReturnedData (clearReturnedData s) p)))
      else
        (deliverReturnedData (clearReturnedData s) p, none)

/-- The outcome of a blocking read call: its result (the delivered data,
or the timeout error), the number of attempts made, the socket state
afterwards, the caller array afterwards, and the read-request frames
handed to the Transport, oldest first. -/
structure ReadOutcome where
  result : Except FlowError (List Nat)
  attemptsUsed : Nat
  socket : BaseSocket
  callerBuffer : List Nat
  requests : List (List Nat)

/-- Modelled from the spec, section 4.4: the retry loop of the blocking
read.  Each attempt issues a read request, clears the returned-data
buffer and waits; a matching full response is copied to the caller array
and ends the loop; exhausting the attempts reports timeoutError with the
caller array untouched. -/
def readLoop (sa n : Nat) (oracle : Nat → AttemptOutcome) :
    Nat → Nat → BaseSocket → List Nat → ReadOutcome
  | 0, used, s, buf =>
      { result := Except.error FlowError.timeoutError
        attemptsUsed := used
        socket := s
        callerBuffer := buf
        requests := [] }
  | k + 1, used, s, buf =>
      match (readAttempt s n (oracle used)).2 with
      | some p =>
          { result := Except.ok p
            attemptsUsed := used + 1
            socket := (readAttempt s n (oracle used)).1
            callerBuffer := p
            requests := [frameBytes Instruction.read sa n []] }
      | none =>
          { readLoop sa n oracle k (used + 1) (readAttempt s n (oracle used)).1 buf with
            requests := frameBytes Instruction.read sa n [] ::
              (readLoop sa n oracle k (used + 1) (readAttempt s n (oracle used)).1 buf).requests }

/-- Modelled from the spec: UsbSocket::read of src/FlowSerial.hpp line
195, the blocking read with a 500 ms wait per attempt and three attempts
before TimeoutError. -/
def read (startAddress n : Nat) (s : BaseSocket) (buf : List Nat)
    (oracle : Nat → AttemptOutcome) : ReadOutcome :=
  readLoop startAddress n oracle readMaxAttempts 0 s buf

/-- The parser bookkeeping left behind by a full frame with the given
fields consumed from the idle state; used to state the frame lemmas. -/
def parsedSocket (s : BaseSocket) (inst : Instruction) (sa len : Nat)
    (payload : List Nat) (received : Nat) : BaseSocket :=
  { s with instruction := inst
           startAddress := sa
           nBytes := len
           argumentBytesReceived := 2
           flowSerialBuffer := payload
           checksum := checksumOf (instructionCode inst :: sa :: len :: payload)
           checksumReceived := received
           flowSerialState := State.idle }

lemma decode_code (inst : Instruction) : decodeInstruction (instructionCode inst) = some inst := by
  cases inst <;> rfl

lemma accumulate_lt (a b : Nat) : accumulate a b < 65536 :=
  Nat.mod_lt _ (by omega)

lemma foldl_accumulate_lt (l : List Nat) : ∀ a : Nat, a < 65536 → l.foldl accumulate a < 65536 := by
  induction l with
  | nil => intro a h; exact h
  | cons b rest ih => intro a h; exact ih _ (accumulate_lt a b)

lemma checksumOf_cons_lt (x : Nat) (l : List Nat) : checksumOf (x :: l) < 65536 := by
  have h : checksumOf (x :: l) = l.foldl accumulate (accumulate 0 x) := rfl
  rw [h]
  exact foldl_accumulate_lt l _ (accumulate_lt 0 x)

lemma handleByte_flag (s : BaseSocket) (b : Nat) : (handleByte s b).2 = frameCompletes s b := by
  cases hs : s.flowSerialState <;>
    simp only [handleByte, frameCompletes, hs] <;>
    (repeat' split) <;>
    simp_all

lemma update_nil (s : BaseSocket) : update s [] = (s, false) := rfl

lemma update_cons (s : BaseSocket) (b : Nat) (l : List Nat) :
    update s (b :: l)
      = ((update (handleByte s b).1 l).1,
         (handleByte s b).2 || (update (handleByte s b).1 l).2) := rfl

lemma completedFrames_nil (s : BaseSocket) : completedFrames s [] = 0 := rfl

lemma completedFrames_cons (s : BaseSocket) (b : Nat) (l : List Nat) :
    completedFrames s (b :: l)
      = (if frameCompletes s b then 1 else 0) + completedFrames (handleByte s b).1 l := rfl

lemma update_payload (payload : List Nat) : ∀ (s : BaseSocket) (tail : List Nat),
    s.flowSerialState = State.instructionReceived →
    s.argumentBytesReceived = 2 →
    payload ≠ [] →
    s.flowSerialBuffer.length + payload.length = payloadLength s.instruction s.nBytes →
    update s (payload ++ tail)
      = update { s with flowSerialBuffer := s.flowSerialBuffer ++ payload,
                        checksum := payload.foldl accumulate s.checksum,
                        flowSerialState := State.argumentsReceived } tail
    ∧ completedFrames s (payload ++ tail)
      = completedFrames { s with flowSerialBuffer := s.flowSerialBuffer ++ payload,
                                 checksum := payload.foldl accumulate s.checksum,
                                 flowSerialState := State.argumentsReceived } tail := by
  induction payload with
  | nil =>
      intro s tail _ _ hne _
      exact absurd rfl hne
  | cons b rest ih =>
      intro s tail hstate hargs _ hlen
      rcases rest with _ | ⟨c, rest2⟩
      · have hcond : (s.flowSerialBuffer ++ [b]).length = payloadLength s.instruction s.nBytes := by
          simp only [List.length_append, List.length_singleton]
          simpa using hlen
        have hhb : handleByte s b
            = ({ s with flowSerialBuffer := s.flowSerialBuffer ++ [b],
                        checksum := accumulate s.checksum b,
                        flowSerialState := State.argumentsReceived }, false) := by
          simp [handleByte, hstate, hargs, hcond]
        constructor
        · show update s (b :: tail) = _
          rw [update_cons, hhb]
          simp
        · show completedFrames s (b :: tail) = _
          rw [completedFrames_cons, hhb]
          simp [frameCompletes, hstate]
      · have hcond : ¬(s.flowSerialBuffer.length + 1 = payloadLength s.instruction s.nBytes) := by
          simp only [List.length_cons] at hlen
          omega
        have hhb : handleByte s b
            = ({ s with flowSerialBuffer := s.flowSerialBuffer ++ [b],
                        checksum := accumulate s.checksum b }, false) := by
          simp [handleByte, hstate, hargs, hcond]
        have hrec := ih { s with flowSerialBuffer := s.flowSerialBuffer ++ [b],
                                 checksum := accumulate s.checksum b } tail
          hstate hargs (by simp) (by simp only [List.length_append, List.length_singleton]
                                     simp only [List.length_cons] at hlen ⊢
                                     omega)
        have hrw : ({ s with flowSerialBuffer := s.flowSerialBuffer ++ [b],
                             checksum := accumulate s.checksum b } : BaseSocket).flowSerialBuffer
                     ++ (c :: rest2) = s.flowSerialBuffer ++ (b :: c :: rest2) := by
          simp
        constructor
        · show update s (b :: ((c :: rest2) ++ tail)) = _
          rw [update_cons, hhb]
          simp only [Bool.false_or]
          have h1 := hrec.1
          simp only [hrw] at h1
          rw [← Prod.mk.eta (p := update _ ((c :: rest2) ++ tail))] at h1 ⊢
          simpa using h1
        · show completedFrames s (b :: ((c :: rest2) ++ tail)) = _
          rw [completedFrames_cons, hhb]
          have h2 := hrec.2
          simp only [hrw] at h2
          simpa [frameCompletes, hstate] using h2

lemma update_prefix (s : BaseSocket) (inst : Instruction) (sa len : Nat) (rest : List Nat)
    (hidle : s.flowSerialState = State.idle) (hnp : ¬(payloadLength inst len = 0)) :
    update s (startMarker :: instructionCode inst :: sa :: len :: rest)
      = update { s with instruction := inst,
                        checksum := accumulate (accumulate (instructionCode inst % 65536) sa) len,
                        argumentBytesReceived := 2,
                        flowSerialBuffer := [],
                        startAddress := sa,
                        nBytes := len,
                        flowSerialState := State.instructionReceived } rest
    ∧ completedFrames s (startMarker :: instructionCode inst :: sa :: len :: rest)
      = completedFrames { s with instruction := inst,
                                 checksum := accumulate (accumulate (instructionCode inst % 65536) sa) len,
                                 argumentBytesReceived := 2,
                                 flowSerialBuffer := [],
                                 startAddress := sa,
                                 nBytes := len,
                                 flowSerialState := State.instructionReceived } rest := by
  constructor <;>
    simp [update_cons, completedFrames_cons, handleByte, frameCompletes, hidle, decode_code, hnp]

lemma update_prefix_nopayload (s : BaseSocket) (inst : Instruction) (sa len : Nat) (rest : List Nat)
    (hidle : s.flowSerialState = State.idle) (hnp : payloadLength inst len = 0) :
    update s (startMarker :: instructionCode inst :: sa :: len :: rest)
      = update { s with instruction := inst,
                        checksum := accumulate (accumulate (instructionCode inst % 65536) sa) len,
                        argumentBytesReceived := 2,
                        flowSerialBuffer := [],
                        startAddress := sa,
                        nBytes := len,
                        flowSerialState := State.argumentsReceived } rest
    ∧ completedFrames s (startMarker :: instructionCode inst :: sa :: len :: rest)
      = completedFrames { s with instruction := inst,
                                 checksum := accumulate (accumulate (instructionCode inst % 65536) sa) len,
                                 argumentBytesReceived := 2,
                                 flowSerialBuffer := [],
                                 startAddress := sa,
                                 nBytes := len,
                                 flowSerialState := State.argumentsReceived } rest := by
  constructor <;>
    simp [update_cons, completedFrames_cons, handleByte, frameCompletes, hidle, decode_code, hnp]

lemma update_checksum_bytes (s : BaseSocket) (lo hi : Nat)
    (hstate : s.flowSerialState = State.argumentsReceived)
    (hlo : lo < 256) (hhi : hi < 256) :
    update s [lo, hi]
      = (if s.checksum = lo + 256 * hi
         then (applyEffect { s with checksumReceived := lo + 256 * hi,
                                    flowSerialState := State.idle }, true)
         else ({ s with checksumReceived := lo + 256 * hi,
                        flowSerialState := State.idle }, false))
    ∧ completedFrames s [lo, hi] = (if s.checksum = lo + 256 * hi then 1 else 0) := by
  have hlo2 : lo % 256 = lo := Nat.mod_eq_of_lt hlo
  have hhi2 : hi % 256 = hi := Nat.mod_eq_of_lt hhi
  have hrecv : (lo + 256 * hi) % 65536 = lo + 256 * hi := Nat.mod_eq_of_lt (by omega)
  constructor <;>
    simp [update_cons, update_nil, completedFrames_cons, completedFrames_nil, handleByte,
          frameCompletes, hstate, verify, hlo2, hhi2, hrecv]

lemma update_frame (s : BaseSocket) (inst : Instruction) (sa len lo hi : Nat)
    (payload : List Nat)
    (hidle : s.flowSerialState = State.idle)
    (hlo : lo < 256) (hhi : hi < 256)
    (hpl : payload.length = payloadLength inst len) :
    update s (startMarker :: instructionCode inst :: sa :: len :: (payload ++ [lo, hi]))
      = (if checksumOf (instructionCode inst :: sa :: len :: payload) = lo + 256 * hi
         then (applyEffect (parsedSocket s inst sa len payload (lo + 256 * hi)), true)
         else (parsedSocket s inst sa len payload (lo + 256 * hi), false))
    ∧ completedFrames s (startMarker :: instructionCode inst :: sa :: len :: (payload ++ [lo, hi]))
      = (if checksumOf (instructionCode inst :: sa :: len :: payload) = lo + 256 * hi
         then 1 else 0) := by
  by_cases hp0 : payloadLength inst len = 0
  · have hpe : payload = [] := List.eq_nil_of_length_eq_zero (by rw [hpl, hp0])
    subst hpe
    obtain ⟨h1, h2⟩ := update_prefix_nopayload s inst sa len [lo, hi] hidle hp0
    obtain ⟨h3, h4⟩ := update_checksum_bytes
      { s with instruction := inst,
               checksum := accumulate (accumulate (instructionCode inst % 65536) sa) len,
               argumentBytesReceived := 2,
               flowSerialBuffer := [],
               startAddress := sa,
               nBytes := len,
               flowSerialState := State.argumentsReceived } lo hi rfl hlo hhi
    refine ⟨h1.trans (h3.trans ?_), h2.trans (h4.trans ?_)⟩
    · simp [parsedSocket, checksumOf, accumulate]
    · simp [checksumOf, accumulate]
  · have hne : payload ≠ [] := by
      intro h
      apply hp0
      rw [h] at hpl
      simpa using hpl.symm
    obtain ⟨h1, h2⟩ := update_prefix s inst sa len (payload ++ [lo, hi]) hidle hp0
    obtain ⟨h3, h4⟩ := update_payload payload
      { s with instruction := inst,
               checksum := accumulate (accumulate (instructionCode inst % 65536) sa) len,
               argumentBytesReceived := 2,
               flowSerialBuffer := [],
               startAddress := sa,
               nBytes := len,
               flowSerialState := State.instructionReceived } [lo, hi]
      rfl rfl hne (by simpa using hpl)
    obtain ⟨h5, h6⟩ := update_checksum_bytes
      { { s with instruction := inst,
                 checksum := accumulate (accumulate (instructionCode inst % 65536) sa) len,
                 argumentBytesReceived := 2,
                 flowSerialBuffer := [],
                 startAddress := sa,
                 nBytes := len,
                 flowSerialState := State.instructionReceived } with
          flowSerialBuffer := [] ++ payload,
          checksum := payload.foldl accumulate
            (accumulate (accumulate (instructionCode inst % 65536) sa) len),
          flowSerialState := State.argumentsReceived } lo hi rfl hlo hhi
    refine ⟨h1.trans (h3.trans (h5.trans ?_)), h2.trans (h4.trans (h6.trans ?_))⟩
    · simp [parsedSocket, checksumOf, accumulate]
    · simp [checksumOf, accumulate]

lemma applyEffect_preserves (s : BaseSocket) :
    (applyEffect s).checksum = s.checksum
    ∧ (applyEffect s).checksumReceived = s.checksumReceived
    ∧ (applyEffect s).flowSerialState = s.flowSerialState
    ∧ (applyEffect s).instruction = s.instruction
    ∧ (applyEffect s).startAddress = s.startAddress
    ∧ (applyEffect s).nBytes = s.nBytes := by
  cases h : s.instruction <;> simp [applyEffect, h] <;> split <;> simp [h]

/-- C1: a valid in-bounds Write frame with payload P, fed byte by byte to
an idle parser, completes exactly one frame, returns true, splices P into
the register at startAddress leaving all other register bytes unchanged,
and leaves the parser idle. -/
theorem write_frame_updates_register (s : BaseSocket) (sa : Nat) (P : List Nat)
    (hidle : s.flowSerialState = State.idle)
    (hbounds : sa + P.length ≤ s.flowRegister.length) :
    completedFrames s (frameBytes Instruction.write sa P.length P) = 1
    ∧ (update s (frameBytes Instruction.write sa P.length P)).2 = true
    ∧ (update s (frameBytes Instruction.write sa P.length P)).1.flowRegister
        = s.flowRegister.take sa ++ P ++ s.flowRegister.drop (sa + P.length)
    ∧ (update s (frameBytes Instruction.write sa P.length P)).1.flowSerialState
        = State.idle := by
  have hcs := checksumOf_cons_lt (instructionCode Instruction.write) (sa :: P.length :: P)
  have hlo : checksumOf (instructionCode Instruction.write :: sa :: P.length :: P) % 256 < 256 := by
    omega
  have hhi : checksumOf (instructionCode Instruction.write :: sa :: P.length :: P) / 256 < 256 := by
    omega
  have hsum : checksumOf (instructionCode Instruction.write :: sa :: P.length :: P) % 256
      + 256 * (checksumOf (instructionCode Instruction.write :: sa :: P.length :: P) / 256)
      = checksumOf (instructionCode Instruction.write :: sa :: P.length :: P) := by
    omega
  obtain ⟨h1, h2⟩ := update_frame s Instruction.write sa P.length
    (checksumOf (instructionCode Instruction.write :: sa :: P.length :: P) % 256)
    (checksumOf (instructionCode Instruction.write :: sa :: P.length :: P) / 256)
    P hidle hlo hhi rfl
  rw [hsum] at h1 h2
  rw [if_pos rfl] at h1 h2
  refine ⟨?_, ?_, ?_, ?_⟩
  · exact h2
  · show (update s (startMarker :: _ :: sa :: P.length :: (P ++ [_, _]))).2 = true
    rw [h1]
  · show (update s (startMarker :: _ :: sa :: P.length :: (P ++ [_, _]))).1.flowRegister = _
    rw [h1]
    simp [applyEffect, parsedSocket, hbounds]
  · show (update s (startMarker :: _ :: sa :: P.length :: (P ++ [_, _]))).1.flowSerialState = _
    rw [h1]
    simp [applyEffect, parsedSocket, hbounds]

/-- Witness for C1, the scenario of the spec: register of length 4
holding zeros, a Write frame at address 1 with payload 9, 9 yields the
register 0, 9, 9, 0 with exactly one completed frame. -/
theorem write_frame_updates_register_witness :
    completedFrames (mkSocket [0, 0, 0, 0]) (frameBytes Instruction.write 1 2 [9, 9]) = 1
    ∧ (update (mkSocket [0, 0, 0, 0]) (frameBytes Instruction.write 1 2 [9, 9])).2 = true
    ∧ (update (mkSocket [0, 0, 0, 0]) (frameBytes Instruction.write 1 2 [9, 9])).1.flowRegister
        = [0, 9, 9, 0]
    ∧ (update (mkSocket [0, 0, 0, 0]) (frameBytes Instruction.write 1 2 [9, 9])).1.flowSerialState
        = State.idle := by
  have h := write_frame_updates_register (mkSocket [0, 0, 0, 0]) 1 [9, 9] rfl (by decide)
  simpa using h

/-- C2: a frame whose received checksum, assembled low byte first as
low plus 256 times high, differs from the locally accumulated running
checksum is discarded: no register mutation, no returned-data change, no
response sent, the parser ends idle and no completion is signalled. -/
theorem bad_checksum_discarded (s : BaseSocket) (inst : Instruction) (sa len lo hi : Nat)
    (payload : List Nat)
    (hidle : s.flowSerialState = State.idle)
    (hlo : lo < 256) (hhi : hi < 256)
    (hpl : payload.length = payloadLength inst len)
    (hbad : checksumOf (instructionCode inst :: sa :: len :: payload) ≠ lo + 256 * hi) :
    (update s (startMarker :: instructionCode inst :: sa :: len :: (payload ++ [lo, hi]))).1.flowRegister
        = s.flowRegister
    ∧ (update s (startMarker :: instructionCode inst :: sa :: len :: (payload ++ [lo, hi]))).1.inputBuffer
        = s.inputBuffer
    ∧ available (update s (startMarker :: instructionCode inst :: sa :: len :: (payload ++ [lo, hi]))).1
        = available s
    ∧ (update s (startMarker :: instructionCode inst :: sa :: len :: (payload ++ [lo, hi]))).1.sentFrames
        = s.sentFrames
    ∧ (update s (startMarker :: instructionCode inst :: sa :: len :: (payload ++ [lo, hi]))).1.flowSerialState
        = State.idle
    ∧ (update s (startMarker :: instructionCode inst :: sa :: len :: (payload ++ [lo, hi]))).2
        = false
    ∧ completedFrames s (startMarker :: instructionCode inst :: sa :: len :: (payload ++ [lo, hi]))
        = 0 := by
  obtain ⟨h1, h2⟩ := update_frame s inst sa len lo hi payload hidle hlo hhi hpl
  rw [if_neg hbad] at h1 h2
  rw [h1, h2]
  simp [parsedSocket, available]

/-- Witness for C2: the Write frame of the C1 scenario with its checksum
low byte corrupted from 22 to 23 leaves the register, buffers and parser
untouched. -/
theorem bad_checksum_discarded_witness :
    (update (mkSocket [0, 0, 0, 0]) (startMarker :: instructionCode Instruction.write :: 1 :: 2 :: ([9, 9] ++ [23, 0]))).1.flowRegister
        = [0, 0, 0, 0]
    ∧ (update (mkSocket [0, 0, 0, 0]) (startMarker :: instructionCode Instruction.write :: 1 :: 2 :: ([9, 9] ++ [23, 0]))).1.inputBuffer
        = []
    ∧ available (update (mkSocket [0, 0, 0, 0]) (startMarker :: instructionCode Instruction.write :: 1 :: 2 :: ([9, 9] ++ [23, 0]))).1
        = 0
    ∧ (update (mkSocket [0, 0, 0, 0]) (startMarker :: instructionCode Instruction.write :: 1 :: 2 :: ([9, 9] ++ [23, 0]))).1.sentFrames
        = []
    ∧ (update (mkSocket [0, 0, 0, 0]) (startMarker :: instructionCode Instruction.write :: 1 :: 2 :: ([9, 9] ++ [23, 0]))).1.flowSerialState
        = State.idle
    ∧ (update (mkSocket [0, 0, 0, 0]) (startMarker :: instructionCode Instruction.write :: 1 :: 2 :: ([9, 9] ++ [23, 0]))).2
        = false
    ∧ completedFrames (mkSocket [0, 0, 0, 0]) (startMarker :: instructionCode Instruction.write :: 1 :: 2 :: ([9, 9] ++ [23, 0]))
        = 0 := by
  have h := bad_checksum_discarded (mkSocket [0, 0, 0, 0]) Instruction.write 1 2 23 0 [9, 9]
    rfl (by decide) (by decide) rfl (by decide)
  simpa using h

lemma applyEffect_oob (t : BaseSocket)
    (hinst : t.instruction ≠ Instruction.returnRequestedData)
    (hoob : t.flowRegister.length < t.startAddress + t.nBytes) :
    applyEffect t = t := by
  cases h : t.instruction
  · simp only [applyEffect, h]
    rw [if_neg (by omega)]
  · simp only [applyEffect, h]
    rw [if_neg (by omega)]
  · exact absurd h hinst

/-- C3: a received Read or Write frame whose startAddress plus length
exceeds the register length has its effect suppressed: the register is
not mutated, no response frame is sent, the returned-data buffer is
untouched, and the parser returns to idle; every performed peer access
therefore stays inside the register bounds. -/
theorem oob_access_suppressed (s : BaseSocket) (inst : Instruction) (sa len : Nat)
    (payload : List Nat)
    (hidle : s.flowSerialState = State.idle)
    (hinst : inst ≠ Instruction.returnRequestedData)
    (hpl : payload.length = payloadLength inst len)
    (hoob : s.flowRegister.length < sa + len) :
    (update s (frameBytes inst sa len payload)).1.flowRegister = s.flowRegister
    ∧ (update s (frameBytes inst sa len payload)).1.sentFrames = s.sentFrames
    ∧ (update s (frameBytes inst sa len payload)).1.inputBuffer = s.inputBuffer
    ∧ available (update s (frameBytes inst sa len payload)).1 = available s
    ∧ (update s (frameBytes inst sa len payload)).1.flowSerialState = State.idle := by
  have hcs := checksumOf_cons_lt (instructionCode inst) (sa :: len :: payload)
  have hsum : checksumOf (instructionCode inst :: sa :: len :: payload) % 256
      + 256 * (checksumOf (instructionCode inst :: sa :: len :: payload) / 256)
      = checksumOf (instructionCode inst :: sa :: len :: payload) := by
    omega
  obtain ⟨h1, _⟩ := update_frame s inst sa len
    (checksumOf (instructionCode inst :: sa :: len :: payload) % 256)
    (checksumOf (instructionCode inst :: sa :: len :: payload) / 256)
    payload hidle (by omega) (by omega) hpl
  rw [hsum, if_pos rfl] at h1
  have heff : applyEffect (parsedSocket s inst sa len payload
      (checksumOf (instructionCode inst :: sa :: len :: payload)))
      = parsedSocket s inst sa len payload
          (checksumOf (instructionCode inst :: sa :: len :: payload)) := by
    apply applyEffect_oob
    · simpa [parsedSocket] using hinst
    · simpa [parsedSocket] using hoob
  show (update s (frameBytes inst sa len payload)).1.flowRegister = s.flowRegister ∧ _
  rw [show frameBytes inst sa len payload
        = startMarker :: instructionCode inst :: sa :: len ::
            (payload ++ [checksumOf (instructionCode inst :: sa :: len :: payload) % 256,
                         checksumOf (instructionCode inst :: sa :: len :: payload) / 256])
      from rfl]
  rw [h1, heff]
  simp [parsedSocket, available]

/-- Witness for C3: a Write frame at address 3 with two payload bytes
against a register of length 4 is dropped whole. -/
theorem oob_access_suppressed_witness :
    (update (mkSocket [0, 0, 0, 0]) (frameBytes Instruction.write 3 2 [9, 9])).1.flowRegister
        = [0, 0, 0, 0]
    ∧ (update (mkSocket [0, 0, 0, 0]) (frameBytes Instruction.write 3 2 [9, 9])).1.sentFrames = []
    ∧ (update (mkSocket [0, 0, 0, 0]) (frameBytes Instruction.write 3 2 [9, 9])).1.inputBuffer = []
    ∧ available (update (mkSocket [0, 0, 0, 0]) (frameBytes Instruction.write 3 2 [9, 9])).1 = 0
    ∧ (update (mkSocket [0, 0, 0, 0]) (frameBytes Instruction.write 3 2 [9, 9])).1.flowSerialState
        = State.idle := by
  have h := oob_access_suppressed (mkSocket [0, 0, 0, 0]) Instruction.write 3 2 [9, 9]
    rfl (by decide) rfl (by decide)
  simpa using h

/-- C5: the checksum engine is a pure 16-bit wraparound sum compared by
exact equality; parsing a frame accumulates exactly the bytes from the
instruction field through the last payload byte, the received checksum is
assembled equal to the transmitted one, and the frame carries the
checksum low byte first after the payload, outside the summed range. -/
theorem checksum_engine_pure (s : BaseSocket) (inst : Instruction) (sa len a b : Nat)
    (payload : List Nat)
    (hidle : s.flowSerialState = State.idle)
    (hpl : payload.length = payloadLength inst len) :
    accumulate a b = (a + b) % 65536
    ∧ verify a b = decide (a = b)
    ∧ (update s (frameBytes inst sa len payload)).1.checksum
        = List.foldl accumulate 0 (instructionCode inst :: sa :: len :: payload)
    ∧ (update s (frameBytes inst sa len payload)).1.checksumReceived
        = checksumOf (instructionCode inst :: sa :: len :: payload)
    ∧ frameBytes inst sa len payload
        = startMarker :: instructionCode inst :: sa :: len ::
            (payload ++ [checksumOf (instructionCode inst :: sa :: len :: payload) % 256,
                         checksumOf (instructionCode inst :: sa :: len :: payload) / 256]) := by
  have hcs := checksumOf_cons_lt (instructionCode inst) (sa :: len :: payload)
  have hsum : checksumOf (instructionCode inst :: sa :: len :: payload) % 256
      + 256 * (checksumOf (instructionCode inst :: sa :: len :: payload) / 256)
      = checksumOf (instructionCode inst :: sa :: len :: payload) := by
    omega
  obtain ⟨h1, _⟩ := update_frame s inst sa len
    (checksumOf (instructionCode inst :: sa :: len :: payload) % 256)
    (checksumOf (instructionCode inst :: sa :: len :: payload) / 256)
    payload hidle (by omega) (by omega) hpl
  rw [hsum, if_pos rfl] at h1
  refine ⟨rfl, ?_, ?_, ?_, rfl⟩
  · change (a == b) = decide (a = b)
    by_cases h : a = b <;> simp [h]
  · show (update s (startMarker :: _ :: sa :: len :: (payload ++ [_, _]))).1.checksum = _
    rw [h1]
    have hp := applyEffect_preserves (parsedSocket s inst sa len payload
      (checksumOf (instructionCode inst :: sa :: len :: payload)))
    rw [hp.1]
    rfl
  · show (update s (startMarker :: _ :: sa :: len :: (payload ++ [_, _]))).1.checksumReceived = _
    rw [h1]
    have hp := applyEffect_preserves (parsedSocket s inst sa len payload
      (checksumOf (instructionCode inst :: sa :: len :: payload)))
    rw [hp.2.1]
    rfl

/-- Witness for C5 at the C1 scenario frame. -/
theorem checksum_engine_pure_witness :
    accumulate 65535 9 = (65535 + 9) % 65536
    ∧ verify 65535 9 = decide (65535 = 9)
    ∧ (update (mkSocket [0, 0, 0, 0]) (frameBytes Instruction.write 1 2 [9, 9])).1.checksum
        = List.foldl accumulate 0 (instructionCode Instruction.write :: 1 :: 2 :: [9, 9])
    ∧ (update (mkSocket [0, 0, 0, 0]) (frameBytes Instruction.write 1 2 [9, 9])).1.checksumReceived
        = checksumOf (instructionCode Instruction.write :: 1 :: 2 :: [9, 9])
    ∧ frameBytes Instruction.write 1 2 [9, 9]
        = startMarker :: instructionCode Instruction.write :: 1 :: 2 ::
            ([9, 9] ++ [checksumOf (instructionCode Instruction.write :: 1 :: 2 :: [9, 9]) % 256,
                        checksumOf (instructionCode Instruction.write :: 1 :: 2 :: [9, 9]) / 256]) := by
  exact checksum_engine_pure (mkSocket [0, 0, 0, 0]) Instruction.write 1 2 65535 9 [9, 9] rfl rfl

/-- C6: a completed ReturnRequestedData frame with payload P overwrites
whatever the returned-data buffer held, available becomes the length of
P, getReturnedData yields P in arrival order, and clearReturnedData
followed by available gives 0. -/
theorem returned_data_overwrites (s t : BaseSocket) (sa : Nat) (P : List Nat)
    (hidle : s.flowSerialState = State.idle)
    (hP : P.length < 256) :
    available (update s (frameBytes Instruction.returnRequestedData sa P.length P)).1 = P.length
    ∧ getReturnedData (update s (frameBytes Instruction.returnRequestedData sa P.length P)).1 = P
    ∧ available (clearReturnedData t) = 0 := by
  have hcs := checksumOf_cons_lt (instructionCode Instruction.returnRequestedData)
    (sa :: P.length :: P)
  have hsum : checksumOf (instructionCode Instruction.returnRequestedData :: sa :: P.length :: P) % 256
      + 256 * (checksumOf (instructionCode Instruction.returnRequestedData :: sa :: P.length :: P) / 256)
      = checksumOf (instructionCode Instruction.returnRequestedData :: sa :: P.length :: P) := by
    omega
  obtain ⟨h1, _⟩ := update_frame s Instruction.returnRequestedData sa P.length
    (checksumOf (instructionCode Instruction.returnRequestedData :: sa :: P.length :: P) % 256)
    (checksumOf (instructionCode Instruction.returnRequestedData :: sa :: P.length :: P) / 256)
    P hidle (by omega) (by omega) rfl
  rw [hsum, if_pos rfl] at h1
  have hmod : P.length % 256 = P.length := Nat.mod_eq_of_lt hP
  refine ⟨?_, ?_, rfl⟩
  · show available (update s (startMarker :: _ :: sa :: P.length :: (P ++ [_, _]))).1 = _
    rw [h1]
    simp [applyEffect, parsedSocket, available, hmod]
  · show getReturnedData (update s (startMarker :: _ :: sa :: P.length :: (P ++ [_, _]))).1 = _
    rw [h1]
    simp [applyEffect, parsedSocket, getReturnedData, hmod]

/-- Witness for C6, the scenario of the spec: a buffer holding 3 unread
bytes receives a 2-byte response; available becomes 2, the old bytes are
gone, and clearing yields 0. -/
theorem returned_data_overwrites_witness :
    available (update { mkSocket [] with inputBuffer := [4, 5, 6], inputBufferAvailable := 3 }
        (frameBytes Instruction.returnRequestedData 0 2 [7, 8])).1 = 2
    ∧ getReturnedData (update { mkSocket [] with inputBuffer := [4, 5, 6], inputBufferAvailable := 3 }
        (frameBytes Instruction.returnRequestedData 0 2 [7, 8])).1 = [7, 8]
    ∧ available (clearReturnedData
        { mkSocket [] with inputBuffer := [4, 5, 6], inputBufferAvailable := 3 }) = 0 := by
  have h := returned_data_overwrites
    { mkSocket [] with inputBuffer := [4, 5, 6], inputBufferAvailable := 3 }
    { mkSocket [] with inputBuffer := [4, 5, 6], inputBufferAvailable := 3 }
    0 [7, 8] rfl (by decide)
  simpa using h

/-- C7 (amended): while idle, any byte other than the start marker is
ignored and the parser stays idle; hence noise consisting of bytes that
are not the start marker, fed before any byte sequence, leaves the
parse and its completion count identical to feeding that sequence
alone. -/
theorem resync_skips_nonmarker_noise (s : BaseSocket) (noise frame : List Nat) (b : Nat)
    (hidle : s.flowSerialState = State.idle)
    (hb : b ≠ startMarker)
    (hnoise : ∀ x ∈ noise, x ≠ startMarker) :
    handleByte s b = (s, false)
    ∧ update s (noise ++ frame) = update s frame
    ∧ completedFrames s (noise ++ frame) = completedFrames s frame := by
  have hstep : ∀ x, x ≠ startMarker → handleByte s x = (s, false) := by
    intro x hx
    simp [handleByte, hidle, hx]
  refine ⟨hstep b hb, ?_⟩
  induction noise with
  | nil => simp
  | cons x rest ih =>
      have hx := hnoise x (by simp)
      have hrest := ih (fun y hy => hnoise y (by simp [hy]))
      constructor
      · show update s (x :: (rest ++ frame)) = _
        rw [update_cons, hstep x hx]
        simpa using hrest.1
      · show completedFrames s (x :: (rest ++ frame)) = _
        rw [completedFrames_cons, hstep x hx]
        simpa [frameCompletes, hidle] using hrest.2

/-- Witness for C7 as amended: one noise byte 7 before the C1 scenario
frame changes nothing about its parse. -/
theorem resync_skips_nonmarker_noise_witness :
    handleByte (mkSocket [0, 0, 0, 0]) 7 = (mkSocket [0, 0, 0, 0], false)
    ∧ update (mkSocket [0, 0, 0, 0]) ([7] ++ frameBytes Instruction.write 1 2 [9, 9])
        = update (mkSocket [0, 0, 0, 0]) (frameBytes Instruction.write 1 2 [9, 9])
    ∧ completedFrames (mkSocket [0, 0, 0, 0]) ([7] ++ frameBytes Instruction.write 1 2 [9, 9])
        = completedFrames (mkSocket [0, 0, 0, 0]) (frameBytes Instruction.write 1 2 [9, 9]) := by
  exact resync_skips_nonmarker_noise (mkSocket [0, 0, 0, 0]) [7]
    (frameBytes Instruction.write 1 2 [9, 9]) 7 rfl (by decide)
    (by intro x hx; simp at hx; subst hx; decide)

/-- Counterexample to C7 as stated: noise is not arbitrary.  A single
noise byte equal to the start marker before the valid C1 Write frame
makes the parser consume the frame marker as an instruction byte, so no
frame completes and the register stays all zero, while the frame alone
completes once and writes 9, 9. -/
theorem resync_arbitrary_noise_counterexample :
    completedFrames (mkSocket [0, 0, 0, 0])
        ([startMarker] ++ frameBytes Instruction.write 1 2 [9, 9]) = 0
    ∧ (update (mkSocket [0, 0, 0, 0])
        ([startMarker] ++ frameBytes Instruction.write 1 2 [9, 9])).1.flowRegister = [0, 0, 0, 0]
    ∧ completedFrames (mkSocket [0, 0, 0, 0]) (frameBytes Instruction.write 1 2 [9, 9]) = 1
    ∧ (update (mkSocket [0, 0, 0, 0])
        (frameBytes Instruction.write 1 2 [9, 9])).1.flowRegister = [0, 9, 9, 0] := by
  decide

/-- C8: feeding bytes to update returns true exactly when some frame
reached the momentary checksumOk state during the call. -/
theorem update_signals_completion (s : BaseSocket) (data : List Nat) :
    (update s data).2 = true ↔ 0 < completedFrames s data := by
  induction data generalizing s with
  | nil => simp [update_nil, completedFrames_nil]
  | cons b rest ih =>
      rw [update_cons, completedFrames_cons, handleByte_flag]
      cases h : frameCompletes s b <;> simp [h, ih]

/-- C9: a request larger than the 256-byte staging capacity is rejected
synchronously with a size error by both sendReadRequest and writeToPeer;
no byte array is produced for the Transport. -/
theorem oversize_request_rejected (sa n : Nat) (data : List Nat)
    (hn : inputBufferSize < n) (hdata : data.length = n) :
    sendReadRequest sa n = Except.error FlowError.sizeError
    ∧ writeToPeer sa data = Except.error FlowError.sizeError := by
  constructor
  · simp [sendReadRequest, hn]
  · rw [writeToPeer, if_pos (by omega)]

/-- Witness for C9 at n equal to 257. -/
theorem oversize_request_rejected_witness :
    sendReadRequest 0 257 = Except.error FlowError.sizeError
    ∧ writeToPeer 0 (List.replicate 257 0) = Except.error FlowError.sizeError := by
  exact oversize_request_rejected 0 257 (List.replicate 257 0) (by decide)
    (List.length_replicate 257 0)

lemma applyEffect_available (t : BaseSocket) :
    (applyEffect t).inputBufferAvailable = t.inputBufferAvailable
    ∨ (applyEffect t).inputBufferAvailable ≤ 255 := by
  cases h : t.instruction
  · simp only [applyEffect, h]
    split <;> exact Or.inl rfl
  · simp only [applyEffect, h]
    split <;> exact Or.inl rfl
  · right
    simp only [applyEffect, h]
    have := Nat.mod_lt t.flowSerialBuffer.length (show 0 < 256 by omega)
    omega

lemma handleByte_available (s : BaseSocket) (b : Nat) :
    (handleByte s b).1.inputBufferAvailable = s.inputBufferAvailable
    ∨ (handleByte s b).1.inputBufferAvailable ≤ 255 := by
  cases hs : s.flowSerialState
  case idle =>
    simp only [handleByte, hs]
    split <;> exact Or.inl rfl
  case startByteReceived =>
    simp only [handleByte, hs]
    split <;> exact Or.inl rfl
  case instructionReceived =>
    simp only [handleByte, hs]
    repeat' split
    all_goals exact Or.inl rfl
  case argumentsReceived =>
    simp [handleByte, hs]
  case lsbChecksumReceived =>
    simp only [handleByte, hs]
    split
    · have h := applyEffect_available
        { s with checksumReceived := (s.checksumReceived + 256 * (b % 256)) % 65536,
                 flowSerialState := State.idle }
      simpa using h
    · exact Or.inl rfl
  case msbChecksumReceived =>
    simp [handleByte, hs]
  case checksumOk =>
    simp [handleByte, hs]

lemma update_available_le (data : List Nat) : ∀ s : BaseSocket,
    s.inputBufferAvailable ≤ 255 → (update s data).1.inputBufferAvailable ≤ 255 := by
  induction data with
  | nil => intro s h; exact h
  | cons b rest ih =>
      intro s h
      rw [update_cons]
      rcases handleByte_available s b with heq | hle
      · exact ih _ (by rw [heq]; exact h)
      · exact ih _ hle

/-- C10: in every state reachable from a fresh socket the available
count fits in 8 bits, at most 255, although the buffer capacity is 256;
the counter is updated modulo 256, so the returned-data effect of a
frame staged with a 256-byte payload reports an available count of 0. -/
theorem available_is_eight_bit (reg data : List Nat) (t : BaseSocket)
    (hinst : t.instruction = Instruction.returnRequestedData)
    (hlen : t.flowSerialBuffer.length = 256) :
    available (update (mkSocket reg) data).1 ≤ 255
    ∧ available (applyEffect t) = 0 := by
  constructor
  · exact update_available_le data (mkSocket reg) (by simp [mkSocket])
  · simp [applyEffect, hinst, available, hlen]

/-- Witness for C10: a fresh socket fed some bytes, and the effect of a
256-byte staged ReturnRequestedData payload. -/
theorem available_is_eight_bit_witness :
    available (update (mkSocket [0]) [1, 2, 3]).1 ≤ 255
    ∧ available (applyEffect { mkSocket [] with
        instruction := Instruction.returnRequestedData,
        flowSerialBuffer := List.replicate 256 7 }) = 0 := by
  exact available_is_eight_bit [0] [1, 2, 3]
    { mkSocket [] with
      instruction := Instruction.returnRequestedData,
      flowSerialBuffer := List.replicate 256 7 }
    rfl (List.length_replicate 256 7)

lemma readAttempt_none_iff (s : BaseSocket) (n : Nat) (o : AttemptOutcome) :
    (readAttempt s n o).2 = none ↔ attemptFails o n = true := by
  cases o with
  | timeout => simp [readAttempt, attemptFails]
  | response p =>
      by_cases h : p.length % 256 = n <;>
        simp [readAttempt, attemptFails, available, deliverReturnedData, clearReturnedData, h]

lemma readAttempt_some (s : BaseSocket) (n : Nat) (o : AttemptOutcome)
    (h : attemptFails o n = false) :
    ∃ p : List Nat, (readAttempt s n o).2 = some p ∧ p.length = n := by
  cases o with
  | timeout => simp [attemptFails] at h
  | response q =>
      have hq : q.length % 256 = n := by simpa [attemptFails] using h
      have hle : n ≤ q.length := hq ▸ Nat.mod_le q.length 256
      refine ⟨q.take n, ?_, ?_⟩
      · simp [readAttempt, available, deliverReturnedData, clearReturnedData, getReturnedData, hq]
      · simp [List.length_take]
        omega

/-- C4: the blocking read makes at most 3 attempts, each issuing one
read request; it reports timeoutError exactly when all 3 attempts fail
(no response within the wait, or a delivered length different from n);
on success the caller array receives precisely one full matching
response of length n; on timeout the caller array is untouched. -/
theorem read_bounded_retry (sa n : Nat) (s : BaseSocket) (buf : List Nat)
    (oracle : Nat → AttemptOutcome) :
    (read sa n s buf oracle).attemptsUsed ≤ 3
    ∧ ((read sa n s buf oracle).result = Except.error FlowError.timeoutError
        ↔ attemptFails (oracle 0) n = true ∧ attemptFails (oracle 1) n = true
          ∧ attemptFails (oracle 2) n = true)
    ∧ (∀ p : List Nat, (read sa n s buf oracle).result = Except.ok p →
          p.length = n ∧ (read sa n s buf oracle).callerBuffer = p)
    ∧ ((read sa n s buf oracle).result = Except.error FlowError.timeoutError →
          (read sa n s buf oracle).callerBuffer = buf
          ∧ (read sa n s buf oracle).attemptsUsed = 3)
    ∧ (read sa n s buf oracle).requests.length = (read sa n s buf oracle).attemptsUsed := by
  by_cases hf0 : attemptFails (oracle 0) n = true
  · have hp0 : (readAttempt s n (oracle 0)).2 = none := (readAttempt_none_iff _ _ _).mpr hf0
    by_cases hf1 : attemptFails (oracle 1) n = true
    · have hp1 : (readAttempt (readAttempt s n (oracle 0)).1 n (oracle 1)).2 = none :=
        (readAttempt_none_iff _ _ _).mpr hf1
      by_cases hf2 : attemptFails (oracle 2) n = true
      · have hp2 : (readAttempt (readAttempt (readAttempt s n (oracle 0)).1 n (oracle 1)).1
            n (oracle 2)).2 = none := (readAttempt_none_iff _ _ _).mpr hf2
        have hread : read sa n s buf oracle
            = { result := Except.error FlowError.timeoutError
                attemptsUsed := 3
                socket := (readAttempt (readAttempt (readAttempt s n (oracle 0)).1
                  n (oracle 1)).1 n (oracle 2)).1
                callerBuffer := buf
                requests := [frameBytes Instruction.read sa n [],
                             frameBytes Instruction.read sa n [],
                             frameBytes Instruction.read sa n []] } := by
          show readLoop sa n oracle 3 0 s buf = _
          simp [readLoop, hp0, hp1, hp2]
        rw [hread]
        simp [hf0, hf1, hf2]
      · have hf2f : attemptFails (oracle 2) n = false := by
          revert hf2
          cases attemptFails (oracle 2) n <;> simp
        obtain ⟨p2, hp2, hlen2⟩ := readAttempt_some
          (readAttempt (readAttempt s n (oracle 0)).1 n (oracle 1)).1 n (oracle 2) hf2f
        have hread : read sa n s buf oracle
            = { result := Except.ok p2
                attemptsUsed := 3
                socket := (readAttempt (readAttempt (readAttempt s n (oracle 0)).1
                  n (oracle 1)).1 n (oracle 2)).1
                callerBuffer := p2
                requests := [frameBytes Instruction.read sa n [],
                             frameBytes Instruction.read sa n [],
                             frameBytes Instruction.read sa n []] } := by
          show readLoop sa n oracle 3 0 s buf = _
          simp [readLoop, hp0, hp1, hp2]
        rw [hread]
        simp [hf2, hlen2]
    · have hf1f : attemptFails (oracle 1) n = false := by
        revert hf1
        cases attemptFails (oracle 1) n <;> simp
      obtain ⟨p1, hp1, hlen1⟩ := readAttempt_some (readAttempt s n (oracle 0)).1 n (oracle 1) hf1f
      have hread : read sa n s buf oracle
          = { result := Except.ok p1
              attemptsUsed := 2
              socket := (readAttempt (readAttempt s n (oracle 0)).1 n (oracle 1)).1
              callerBuffer := p1
              requests := [frameBytes Instruction.read sa n [],
                           frameBytes Instruction.read sa n []] } := by
        show readLoop sa n oracle 3 0 s buf = _
        simp [readLoop, hp0, hp1]
      rw [hread]
      simp [hf1, hlen1]
  · have hf0f : attemptFails (oracle 0) n = false := by
      revert hf0
      cases attemptFails (oracle 0) n <;> simp
    obtain ⟨p0, hp0, hlen0⟩ := readAttempt_some s n (oracle 0) hf0f
    have hread : read sa n s buf oracle
        = { result := Except.ok p0
            attemptsUsed := 1
            socket := (readAttempt s n (oracle 0)).1
            callerBuffer := p0
            requests := [frameBytes Instruction.read sa n []] } := by
      show readLoop sa n oracle 3 0 s buf = _
      simp [readLoop, hp0]
    rw [hread]
    simp [hf0, hlen0]

end FlowSerial
